import Mathlib

/-!
Verification development for the lcbex view-option library
(`src/viewopts.c`, public interface in `include/lcbex/viewopts.h`).

The C code is shallowly embedded: C byte buffers become `List Nat`
(byte values 0..255), C `int` values become `Int`, the `lcbex_vopt_st`
record becomes the structure `Vopt` (a NULL pointer field is `none`),
`lcb_error_t` becomes `LcbError`, and the `char **error_string` output
cell is threaded explicitly as an `Option String` (NULL cell = `none`).
The `SIZE_MAX` length sentinel of the C API (meaning: take `strlen` of
the argument) is resolved by callers in this model, which pass the
resolved byte counts; `lcbex_vopt_createv`, which passes `-1` in the C
source, applies `cstrlen` itself, matching that resolution.
-/

namespace Lcbex

/-- Byte content of an ASCII string literal, as the list of its byte
values. Models a C string constant; the terminating NUL byte is kept
implicit (it is appended where the C comparison semantics need it). -/
def strBytes (s : String) : List Nat :=
  s.data.map Char.toNat

/-- C `tolower` on an unsigned char value. -/
def ctolower (c : Nat) : Nat :=
  if 65 ≤ c ∧ c ≤ 90 then c + 32 else c

/-- C `isdigit` on a byte value. -/
def cisdigit (c : Nat) : Bool :=
  48 ≤ c && c ≤ 57

/-- C `strlen` over a byte buffer: bytes before the first NUL. -/
def cstrlen (s : List Nat) : Nat :=
  (s.takeWhile (fun c => c ≠ 0)).length

/-- `strncmp(a, b, n) == 0`: compare at most `n` bytes, stopping early
when both strings reach a NUL byte together. Reading past the end of a
list yields the implicit NUL terminator. -/
def strncmpEq : List Nat → List Nat → Nat → Bool
  | _, _, 0 => true
  | a, b, n + 1 =>
    let c1 := a.headD 0
    let c2 := b.headD 0
    if c1 ≠ c2 then false
    else if c1 = 0 then true
    else strncmpEq a.tail b.tail n

/-- `strncasecmp(a, b, n) == 0`: as `strncmpEq` but case-insensitive
(each byte passed through `tolower`, as the C library does). -/
def strncaseEq : List Nat → List Nat → Nat → Bool
  | _, _, 0 => true
  | a, b, n + 1 =>
    let c1 := ctolower (a.headD 0)
    let c2 := ctolower (b.headD 0)
    if c1 ≠ c2 then false
    else if c1 = 0 then true
    else strncaseEq a.tail b.tail n

/-- `my_strndup(s, n)` from `viewopts.c`: `calloc(n+1)` then
`strncpy(buf, s, n)`. The resulting buffer holds the bytes of `s` up to
the first NUL (at most `n` of them), zero-padded to length `n`. -/
def my_strndup (s : List Nat) (n : Nat) : List Nat :=
  let pre := (s.take n).takeWhile (fun c => c ≠ 0)
  pre ++ List.replicate (n - pre.length) 0

/-! ### Flags (`include/lcbex/viewopts.h`). -/

def LCBEX_VOPT_F_PCTENCODE : Nat := 1
def LCBEX_VOPT_F_OPTVAL_NUMERIC : Nat := 2
def LCBEX_VOPT_F_PASSTHROUGH : Nat := 4
def LCBEX_VOPT_F_OPTVAL_CONSTANT : Nat := 8
def LCBEX_VOPT_F_OPTNAME_CONSTANT : Nat := 16
def LCBEX_VOPT_F_OPTNAME_NUMERIC : Nat := 32

/-- `flags & bit` tested as a C truth value. -/
def hasFlag (flags bit : Nat) : Bool :=
  (flags &&& bit) != 0

/-- `flags &= ~bit` (clear a flag bit). -/
def clearFlag (flags bit : Nat) : Nat :=
  Nat.ldiff flags bit

/-- The `lcb_error_t` values this library produces. -/
inductive LcbError
  | success
  | einval
  | enomem
deriving DecidableEq, Repr

/-- A `const void *` argument of the C API together with how the flags
direct it to be read: either a pointer to an `int` or a byte buffer.
`asInt` / `asStr` model the casts `*(int *)p` / `(const char *)p`; the
default values stand for the ill-typed read that the calling convention
(flag matching the datum actually passed) rules out. -/
inductive CVal
  | num (n : Int)
  | str (s : List Nat)
deriving DecidableEq, Repr

def CVal.asInt : CVal → Int
  | .num n => n
  | .str _ => 0

def CVal.asStr : CVal → List Nat
  | .str s => s
  | .num _ => []

/-- `struct lcbex_vopt_st`. Pointer fields are `none` when NULL; the
stored list is the byte content of the buffer the pointer refers to. -/
structure Vopt where
  optname : Option (List Nat)
  optval : Option (List Nat)
  noptname : Nat
  noptval : Nat
  flags : Nat
deriving DecidableEq, Repr

/-- `memset(optobj, 0, sizeof(*optobj))`: all fields zero, pointers NULL. -/
def Vopt.empty : Vopt :=
  { optname := none, optval := none, noptname := 0, noptval := 0, flags := 0 }

/-- Result of a handler or of `lcbex_vopt_assign`: the status code, the
record state, and the contents of the `char **error` cell. -/
abbrev HRes := LcbError × Vopt × Option String

/-- `set_user_string` from `viewopts.c`. -/
def set_user_string (optobj : Vopt) (value : List Nat) (nvalue : Nat)
    (flags : Nat) : Vopt :=
  if hasFlag flags LCBEX_VOPT_F_OPTVAL_CONSTANT then
    { optobj with
        noptval := nvalue
        optval := some value
        flags := optobj.flags ||| LCBEX_VOPT_F_OPTVAL_CONSTANT }
  else
    { optobj with
        noptval := nvalue
        optval := some (my_strndup value nvalue)
        flags := clearFlag optobj.flags LCBEX_VOPT_F_OPTVAL_CONSTANT }

/-- `bool_param_handler`. Sets the error cell to NULL on entry; reads
the value as an int when the NUMERIC flag is set, otherwise compares the
value with `strncasecmp("true", value, nvalue)` and with
`strncasecmp("false", value, nvalue)`. -/
def bool_param_handler (optobj : Vopt) (value : CVal) (nvalue : Nat)
    (flags : Nat) (_e : Option String) : HRes :=
  let finish (bval : Int) : HRes :=
    let v := if bval ≠ 0 then strBytes "true" else strBytes "false"
    (.success,
      { optobj with
          optval := some v
          noptval := v.length
          flags := optobj.flags ||| LCBEX_VOPT_F_OPTVAL_CONSTANT },
      none)
  if hasFlag flags LCBEX_VOPT_F_OPTVAL_NUMERIC then
    finish value.asInt
  else if strncaseEq (strBytes "true") value.asStr nvalue then
    finish 1
  else if strncaseEq (strBytes "false") value.asStr nvalue then
    finish 0
  else
    (.einval, optobj, some "String must be either \x27true\x27 or \x27false\x27")

/-- Decimal digit bytes of a natural number, no leading zeros, `"0"`
for zero. Used to model the `snprintf(buf, 128, "%d", v)` formatting in
`num_param_handler`. -/
def natToDecDigits (n : Nat) : List Nat :=
  if h : n < 10 then [48 + n]
  else natToDecDigits (n / 10) ++ [48 + n % 10]
termination_by n
decreasing_by
  exact Nat.div_lt_self (by omega) (by omega)

/-- `snprintf("%d", v)` for a C int: base-10, a leading minus sign for
negative values. -/
def intToDecBytes (i : Int) : List Nat :=
  if i < 0 then 45 :: natToDecDigits (-i).toNat else natToDecDigits i.toNat

/-- `num_param_handler`. The numeric branch formats the int with
`snprintf(numbuf, 128, "%d", *(int *)value)` and clears the CONSTANT
flag; the string branch validates an optional leading minus sign
followed by digits and stores the string via `set_user_string`.
(The `nvalue == SIZE_MAX` re-resolution in the C source is dead when
reached through `lcbex_vopt_assign`, which resolves it first; callers
of this model pass resolved lengths.) -/
def num_param_handler (optobj : Vopt) (value : CVal) (nvalue : Nat)
    (flags : Nat) (e : Option String) : HRes :=
  if hasFlag flags LCBEX_VOPT_F_OPTVAL_NUMERIC then
    let numbuf := intToDecBytes value.asInt
    (.success,
      { optobj with
          noptval := numbuf.length
          optval := some numbuf
          flags := clearFlag optobj.flags LCBEX_VOPT_F_OPTVAL_CONSTANT },
      e)
  else
    let istr := value.asStr
    if nvalue = 0 then
      (.einval, optobj, some "Received an empty string")
    else if cisdigit (istr.headD 0) = false ∧ istr.headD 0 ≠ 45 then
      (.einval, optobj, some "String must consist entirely of a signed number")
    else if (List.range' 1 (nvalue - 1)).all (fun ii => cisdigit (istr.getD ii 0)) then
      (.success, set_user_string optobj istr nvalue flags, e)
    else
      (.einval, optobj, some "String must consist entirely of digits")

/-- `needs_pct_encoding`: true unless the byte is in `[a-z]`, `[A-Z]`,
`[0-9]`, or is `-` (45), `_` (95), `.` (46). In the C source the
argument is a plain `char`; bytes at or above 128 read as negative there
and fail every range test, exactly as they do here. -/
def needs_pct_encoding (c : Nat) : Bool :=
  if 97 ≤ c ∧ c ≤ 122 then false
  else if 65 ≤ c ∧ c ≤ 90 then false
  else if 48 ≤ c ∧ c ≤ 57 then false
  else if c = 45 ∨ c = 95 ∨ c = 46 then false
  else true

/-- One uppercase hexadecimal digit byte. -/
def hexDigitUpper (n : Nat) : Nat :=
  if n < 10 then 48 + n else 55 + n

/-- The `sprintf(dest, "%%%02X", (unsigned char)c)` escape: a percent
byte followed by exactly two uppercase hex digits of the byte value. -/
def pctEscape (c : Nat) : List Nat :=
  [37, hexDigitUpper (c % 256 / 16), hexDigitUpper (c % 256 % 16)]

/-- `do_pct_encode(dest, src, nsrc)`: the bytes written to `dest`
(its returned `d_len` is the length of this list). -/
def do_pct_encode (src : List Nat) : List Nat :=
  src.foldr
    (fun c acc => (if needs_pct_encoding c then pctEscape c else [c]) ++ acc) []

/-- `string_param_handler` (also bound to the `jval` and `jarry` type
tags through `#define jval_param_handler string_param_handler` and
`#define jarry_param_handler string_param_handler`). -/
def string_param_handler (optobj : Vopt) (value : CVal) (nvalue : Nat)
    (flags : Nat) (e : Option String) : HRes :=
  if hasFlag flags LCBEX_VOPT_F_OPTVAL_NUMERIC then
    (.einval, optobj, some "Option requires a string value")
  else if hasFlag flags LCBEX_VOPT_F_PCTENCODE = false then
    (.success, set_user_string optobj value.asStr nvalue flags, e)
  else
    let str := value.asStr
    let needed_size :=
      ((str.take nvalue).map
        (fun c => if needs_pct_encoding c then 3 else 1)).sum
    if needed_size = nvalue then
      (.success, set_user_string optobj str nvalue flags, e)
    else
      let enc := do_pct_encode (str.take nvalue)
      (.success,
        { optobj with optval := some enc, noptval := enc.length }, e)

/-- `stale_param_handler`: sets the CONSTANT flag, delegates to
`bool_param_handler`; a boolean success whose value starts with `t`
becomes `"ok"`; on boolean failure, `"update_after"` then `"ok"` are
tried with `strncasecmp`. -/
def stale_param_handler (optobj : Vopt) (value : CVal) (nvalue : Nat)
    (flags : Nat) (e : Option String) : HRes :=
  let optobj :=
    { optobj with flags := optobj.flags ||| LCBEX_VOPT_F_OPTVAL_CONSTANT }
  let res := bool_param_handler optobj value nvalue flags e
  if res.1 = .success then
    if ((res.2.1.optval.getD []).headD 0) = 116 then
      (.success,
        { res.2.1 with
            optval := some (strBytes "ok")
            noptval := (strBytes "ok").length },
        res.2.2)
    else
      (.success, res.2.1, res.2.2)
  else
    if strncaseEq (strBytes "update_after") value.asStr nvalue then
      (.success,
        { res.2.1 with
            optval := some (strBytes "update_after")
            noptval := (strBytes "update_after").length },
        res.2.2)
    else if strncaseEq (strBytes "ok") value.asStr nvalue then
      (.success,
        { res.2.1 with
            optval := some (strBytes "ok")
            noptval := (strBytes "ok").length },
        res.2.2)
    else
      (.einval, res.2.1,
        some "stale must be a boolean or the string \x27update_after\x27")

/-- `onerror_param_handler`: stores its usage message in the error cell
unconditionally (even on success, as the C source does), sets the
CONSTANT flag, then matches `"stop"` and `"continue"` with
`strncasecmp` (the source writes `== -0` for the continue branch, which
is `== 0`). -/
def onerror_param_handler (optobj : Vopt) (value : CVal) (nvalue : Nat)
    (_flags : Nat) (_e : Option String) : HRes :=
  let e : Option String := some "on_error must be one of \x27continue\x27 or \x27stop\x27"
  let optobj :=
    { optobj with flags := optobj.flags ||| LCBEX_VOPT_F_OPTVAL_CONSTANT }
  if strncaseEq (strBytes "stop") value.asStr nvalue then
    (.success,
      { optobj with
          optval := some (strBytes "stop")
          noptval := (strBytes "stop").length }, e)
  else if strncaseEq (strBytes "continue") value.asStr nvalue then
    (.success,
      { optobj with
          optval := some (strBytes "continue")
          noptval := (strBytes "continue").length }, e)
  else
    (.einval, optobj, e)

/-! ### The option registry. -/

/-- The handler a registry entry is bound to (the function-pointer
column of `recognized_view_params` after the X-macro expands; `jval`
and `jarry` alias the string handler). -/
inductive PType
  | bool
  | num
  | string
  | jval
  | jarry
  | onerror
  | stale
deriving DecidableEq, Repr

/-- `struct view_param_st`. -/
structure ViewParam where
  itype : Int
  param : List Nat
  ptype : PType
deriving DecidableEq, Repr

/-- Dispatch through the handler column. -/
def runHandler : PType → Vopt → CVal → Nat → Nat → Option String → HRes
  | .bool => bool_param_handler
  | .num => num_param_handler
  | .string => string_param_handler
  | .jval => string_param_handler
  | .jarry => string_param_handler
  | .onerror => onerror_param_handler
  | .stale => stale_param_handler

/-- `recognized_view_params`: the `LCBEX_XVOPT` table in order, with the
numeric ids from the option enum (`LCBEX_VOPT_OPT_DESCENDING = 1`, ...).
The `{0, NULL, NULL}` sentinel that ends the C array is modelled by the
end of the list. -/
def recognized_view_params : List ViewParam :=
  [ ⟨1, strBytes "descending", .bool⟩
  , ⟨2, strBytes "endkey", .jval⟩
  , ⟨3, strBytes "endkey_docid", .string⟩
  , ⟨4, strBytes "full_set", .bool⟩
  , ⟨5, strBytes "group", .bool⟩
  , ⟨6, strBytes "group_level", .num⟩
  , ⟨7, strBytes "inclusive_end", .bool⟩
  , ⟨8, strBytes "keys", .jarry⟩
  , ⟨9, strBytes "key", .jval⟩
  , ⟨10, strBytes "on_error", .onerror⟩
  , ⟨11, strBytes "reduce", .bool⟩
  , ⟨12, strBytes "stale", .stale⟩
  , ⟨13, strBytes "skip", .num⟩
  , ⟨14, strBytes "limit", .num⟩
  , ⟨15, strBytes "startkey", .jval⟩
  , ⟨16, strBytes "startkey_docid", .string⟩
  , ⟨17, strBytes "debug", .bool⟩ ]

/-- `find_view_param`: first table entry whose id equals the int option
(numeric name flag) or whose name matches
`strncmp(option, ret->param, noption) == 0` (a length-bounded
comparison, so an option buffer that is a prefix of a canonical name
matches it). -/
def find_view_param (option : CVal) (noption : Nat) (flags : Nat) :
    Option ViewParam :=
  recognized_view_params.find? (fun ret =>
    if hasFlag flags LCBEX_VOPT_F_OPTNAME_NUMERIC then
      option.asInt == ret.itype
    else
      strncmpEq option.asStr ret.param noption)

/-- `lcbex_vopt_assign`. The record is `memset` to zero at entry (the
prior contents `optobj_prior` are discarded without being released),
lengths arrive already resolved (see the file comment on the `SIZE_MAX`
sentinel), empty string lengths are rejected, then either the
passthrough path (name copied, value handled by the numeric or string
handler with no registry lookup) or the registry path (lookup, name
ownership per flags, dispatch to the entry handler) runs. -/
def lcbex_vopt_assign (_optobj_prior : Vopt) (option : CVal) (noption : Nat)
    (value : CVal) (nvalue : Nat) (flags : Nat) (e : Option String) : HRes :=
  let optobj := Vopt.empty
  if hasFlag flags LCBEX_VOPT_F_OPTVAL_NUMERIC = false ∧ nvalue = 0 then
    (.einval, optobj, some "Missing value length")
  else if hasFlag flags LCBEX_VOPT_F_OPTNAME_NUMERIC = false ∧ noption = 0 then
    (.einval, optobj, some "Missing option name length")
  else if hasFlag flags LCBEX_VOPT_F_PASSTHROUGH then
    if hasFlag flags LCBEX_VOPT_F_OPTNAME_NUMERIC then
      (.einval, optobj, some "Can\x27t use passthrough with option constants")
    else
      let optobj :=
        { optobj with
            optname := some (my_strndup option.asStr noption)
            noptname := noption }
      if hasFlag flags LCBEX_VOPT_F_OPTVAL_NUMERIC then
        num_param_handler optobj value nvalue flags e
      else
        string_param_handler optobj value nvalue flags e
  else
    let optobj := { optobj with flags := flags }
    match find_view_param option noption flags with
    | none => (.einval, optobj, some "Unrecognized option")
    | some vparam =>
      let optobj :=
        if hasFlag flags LCBEX_VOPT_F_OPTNAME_NUMERIC then
          { optobj with
              optname := some vparam.param
              noptname := vparam.param.length
              flags := optobj.flags ||| LCBEX_VOPT_F_OPTNAME_CONSTANT }
        else if hasFlag flags LCBEX_VOPT_F_OPTNAME_CONSTANT then
          { optobj with optname := some option.asStr, noptname := noption }
        else
          { optobj with
              optname := some (my_strndup option.asStr noption)
              noptname := noption }
      runHandler vparam.ptype optobj value nvalue flags e

/-- `lcbex_vopt_cleanup`: frees the owned buffers (a memory action with
no counterpart in this state model) and `memset`s the record to zero. -/
def lcbex_vopt_cleanup (_optobj : Vopt) : Vopt :=
  Vopt.empty

/-- `lcbex_vqstr_calc_len`: `1` for the question mark, per option the
name and value lengths plus `2` for the separators, plus `1` for the
terminator. -/
def lcbex_vqstr_calc_len (options : List Vopt) : Nat :=
  (options.foldl (fun ret o => ret + o.noptname + o.noptval + 2) 1) + 1

/-- Bytes `lcbex_vqstr_write` leaves in the buffer before the NUL
terminator: a question mark, then `name=value&` per option, with the
final separator byte (the trailing ampersand, or the question mark when
the list is empty) removed where the terminator is written over it.
`memcpy(bufp, p, n)` copies `n` bytes, modelled by `take n` of the
stored buffer (every record built by `lcbex_vopt_assign` stores exactly
`noptname` / `noptval` bytes). -/
def lcbex_vqstr_write_bytes (options : List Vopt) : List Nat :=
  (options.foldl
    (fun acc o =>
      acc ++ (o.optname.getD []).take o.noptname ++ [61]
          ++ (o.optval.getD []).take o.noptval ++ [38])
    [63]).dropLast

/-- The value `lcbex_vqstr_write` returns (`bufp - buf`): the pointer
advances by `1` then by `noptname + 1 + noptval + 1` per option, and
steps back once before the terminator is written. -/
def lcbex_vqstr_write_ret (options : List Vopt) : Nat :=
  (options.foldl (fun acc o => acc + o.noptname + o.noptval + 2) 1) - 1

/-- `lcbex_vqstr_make_uri`: prints `_design/<design>/_view/<view>` into
the buffer (the `snprintf` terminator lands where `lcbex_vqstr_write`
then places its leading question mark), so the string content is the
path followed by the query string. Lengths arrive resolved (the C `-1`
sentinel means `strlen`). -/
def lcbex_vqstr_make_uri (design : List Nat) (view : List Nat)
    (options : List Vopt) : List Nat :=
  strBytes "_design/" ++ design ++ strBytes "/_view/" ++ view
    ++ lcbex_vqstr_write_bytes options

/-- The loop of `lcbex_vopt_createv` over the (NULL-terminated) vararg
strings: returns the status, the records assigned so far (`*optarray`),
the value of `*noptions` (incremented before each assignment, so a
failed assignment is counted), and the error cell. -/
def createv_loop : List (List Nat) → List Vopt → Nat → Option String →
    LcbError × List Vopt × Nat × Option String
  | [], acc, n, e => (.success, acc, n, e)
  | [_strp], acc, n, _e =>
    (.einval, acc, n, some "Got odd number of arguments")
  | strp :: value :: rest, acc, n, e =>
    let res := lcbex_vopt_assign Vopt.empty (.str strp) (cstrlen strp)
        (.str value) (cstrlen value) 0 e
    if res.1 = .success then
      createv_loop rest (acc ++ [res.2.1]) (n + 1) res.2.2
    else
      (res.1, acc ++ [res.2.1], n + 1, res.2.2)

/-- `lcbex_vopt_createv`, over the vararg strings that precede the
terminating NULL. Returns the status, `*optarray` (`none` models the
freed-and-NULLed array of every failure path), `*noptions`, and the
error cell (initialised to the empty string). After the loop, a zero
option count forces the no-arguments error; on any error the records
are cleaned up and the array is released. -/
def lcbex_vopt_createv (args : List (List Nat)) :
    LcbError × Option (List Vopt) × Nat × Option String :=
  let res := createv_loop args [] 0 (some "")
  let err := res.1
  let e := res.2.2.2
  let adjusted :=
    if res.2.2.1 = 0 then ((LcbError.einval, some "Got no arguments") :
      LcbError × Option String)
    else (err, e)
  if adjusted.1 = .success then
    (adjusted.1, some res.2.1, res.2.2.1, adjusted.2)
  else
    (adjusted.1, none, res.2.2.1, adjusted.2)

/-! ### Claim-side definitions (worded from the spec, for comparison). -/

/-- Acceptance condition for a numeric option given as a string, as the
spec words it: non-empty, and an optional leading minus sign (byte 45)
followed only by digits. -/
def specNumStringOk (s : List Nat) : Bool :=
  !s.isEmpty && (if s.headD 0 = 45 then s.tail.all cisdigit else s.all cisdigit)

/-! ### Helper lemmas. -/

lemma bool_param_handler_fail (o : Vopt) (v : CVal) (n f : Nat)
    (e : Option String) (h : (bool_param_handler o v n f e).1 ≠ .success) :
    (bool_param_handler o v n f e).2.1 = o := by
  unfold bool_param_handler at *
  split_ifs at h ⊢ <;> simp_all

lemma num_param_handler_fail (o : Vopt) (v : CVal) (n f : Nat)
    (e : Option String) (h : (num_param_handler o v n f e).1 ≠ .success) :
    (num_param_handler o v n f e).2.1 = o := by
  simp only [num_param_handler] at h ⊢
  split_ifs at h ⊢ <;> simp_all

lemma string_param_handler_fail (o : Vopt) (v : CVal) (n f : Nat)
    (e : Option String) (h : (string_param_handler o v n f e).1 ≠ .success) :
    (string_param_handler o v n f e).2.1 = o := by
  simp only [string_param_handler] at h ⊢
  split_ifs at h ⊢ <;> simp_all

lemma stale_param_handler_fail (o : Vopt) (v : CVal) (n f : Nat)
    (e : Option String) (h : (stale_param_handler o v n f e).1 ≠ .success) :
    (stale_param_handler o v n f e).2.1.optval = o.optval ∧
      (stale_param_handler o v n f e).2.1.noptval = o.noptval := by
  unfold stale_param_handler at *
  set o1 : Vopt :=
    { o with flags := o.flags ||| LCBEX_VOPT_F_OPTVAL_CONSTANT } with ho1
  by_cases hb : (bool_param_handler o1 v n f e).1 = .success
  · simp only [hb, if_true] at h ⊢
    split_ifs at h <;> simp_all
  · have hrec := bool_param_handler_fail o1 v n f e hb
    simp only [hb, if_false] at h ⊢
    split_ifs at h ⊢ <;> simp_all [ho1]

lemma onerror_param_handler_fail (o : Vopt) (v : CVal) (n f : Nat)
    (e : Option String) (h : (onerror_param_handler o v n f e).1 ≠ .success) :
    (onerror_param_handler o v n f e).2.1.optval = o.optval ∧
      (onerror_param_handler o v n f e).2.1.noptval = o.noptval := by
  unfold onerror_param_handler at *
  split_ifs at h ⊢ <;> simp_all

lemma runHandler_fail (pt : PType) (o : Vopt) (v : CVal) (n f : Nat)
    (e : Option String) (h : (runHandler pt o v n f e).1 ≠ .success) :
    (runHandler pt o v n f e).2.1.optval = o.optval ∧
      (runHandler pt o v n f e).2.1.noptval = o.noptval := by
  cases pt <;> simp only [runHandler] at h ⊢
  · rw [bool_param_handler_fail o v n f e h]; exact ⟨rfl, rfl⟩
  · rw [num_param_handler_fail o v n f e h]; exact ⟨rfl, rfl⟩
  · rw [string_param_handler_fail o v n f e h]; exact ⟨rfl, rfl⟩
  · rw [string_param_handler_fail o v n f e h]; exact ⟨rfl, rfl⟩
  · rw [string_param_handler_fail o v n f e h]; exact ⟨rfl, rfl⟩
  · exact onerror_param_handler_fail o v n f e h
  · exact stale_param_handler_fail o v n f e h

/-- Claim C1 (counterexample). The claim states that a failed
assignment leaves the record in the empty state with no name set; but
assigning the recognized option `descending` the invalid boolean string
`xyz` returns an error while the record retains the copied option name
(ten bytes, ownership flags clear, so the copy is an owned allocation
that the caller must release with the cleanup call). -/
theorem c1_assign_handler_failure_retains_name :
    (lcbex_vopt_assign Vopt.empty (.str (strBytes "descending")) 10
        (.str (strBytes "xyz")) 3 0 none).1 = .einval ∧
    (lcbex_vopt_assign Vopt.empty (.str (strBytes "descending")) 10
        (.str (strBytes "xyz")) 3 0 none).2.1.optname =
      some (strBytes "descending") ∧
    (lcbex_vopt_assign Vopt.empty (.str (strBytes "descending")) 10
        (.str (strBytes "xyz")) 3 0 none).2.1 ≠ Vopt.empty := by
  decide

/-- Claim C1 (amended): if `lcbex_vopt_assign` returns an error, the
value fields of the record are never set (`optval` stays NULL and
`noptval` stays zero); the option name, however, may remain set (as in
the counterexample), with ownership flags arranged so that
`lcbex_vopt_cleanup` releases any copy. -/
theorem c1_assign_failure_leaves_value_unset (prior : Vopt) (option : CVal)
    (noption : Nat) (value : CVal) (nvalue : Nat) (flags : Nat)
    (e : Option String)
    (h : (lcbex_vopt_assign prior option noption value nvalue flags e).1 ≠
      .success) :
    (lcbex_vopt_assign prior option noption value nvalue flags e).2.1.optval =
      none ∧
    (lcbex_vopt_assign prior option noption value nvalue flags e).2.1.noptval =
      0 := by
  simp only [lcbex_vopt_assign] at h ⊢
  split_ifs at h ⊢ with h1 h2 h3 h4 h5
  · exact ⟨rfl, rfl⟩
  · exact ⟨rfl, rfl⟩
  · exact ⟨rfl, rfl⟩
  · rw [num_param_handler_fail _ _ _ _ _ h]; exact ⟨rfl, rfl⟩
  · rw [string_param_handler_fail _ _ _ _ _ h]; exact ⟨rfl, rfl⟩
  all_goals {
    rcases hf : find_view_param option noption flags with _ | vparam <;>
      rw [hf] at h
    · exact ⟨rfl, rfl⟩
    · exact runHandler_fail _ _ _ _ _ _ h }

/-- Claim C1 (witness for the amended theorem, at the counterexample
input). -/
theorem c1_witness :
    (lcbex_vopt_assign Vopt.empty (.str (strBytes "descending")) 10
        (.str (strBytes "xyz")) 3 0 none).2.1.optval = none ∧
    (lcbex_vopt_assign Vopt.empty (.str (strBytes "descending")) 10
        (.str (strBytes "xyz")) 3 0 none).2.1.noptval = 0 :=
  c1_assign_failure_leaves_value_unset Vopt.empty
    (.str (strBytes "descending")) 10 (.str (strBytes "xyz")) 3 0 none
    (by decide)

lemma my_strndup_self (s : List Nat) (h : (0 : Nat) ∉ s) :
    my_strndup s s.length = s := by
  unfold my_strndup
  rw [List.take_length]
  have ht : s.takeWhile (fun c => decide (c ≠ 0)) = s := by
    refine List.takeWhile_eq_self_iff.mpr ?_
    intro x hx
    simp only [decide_eq_true_eq]
    exact fun h0 => h (h0 ▸ hx)
  rw [ht]
  simp

/-- Claim C10. The record produced by `lcbex_vopt_assign` and its
return code are determined solely by the arguments: the record is
unconditionally `memset` to zero at entry (prior contents are discarded,
not released), so the call from any prior record state equals the call
from the empty record, and two calls with identical arguments agree no
matter what the two prior states were. -/
theorem c10_assign_ignores_prior_state (prior1 prior2 : Vopt) (option : CVal)
    (noption : Nat) (value : CVal) (nvalue : Nat) (flags : Nat)
    (e : Option String) :
    lcbex_vopt_assign prior1 option noption value nvalue flags e =
      lcbex_vopt_assign prior2 option noption value nvalue flags e ∧
    lcbex_vopt_assign prior1 option noption value nvalue flags e =
      lcbex_vopt_assign Vopt.empty option noption value nvalue flags e :=
  ⟨rfl, rfl⟩

/-- Claim C2 (counterexample). The claim states that any option name
that is not exactly a canonical registry name is rejected without the
passthrough flag; but the lookup is a length-bounded `strncmp`, so the
four-byte name `desc` — not a canonical name — matches the entry
`descending` and the assignment succeeds. -/
theorem c2_prefix_name_accepted_without_passthrough :
    (strBytes "desc") ∉ recognized_view_params.map (fun p => p.param) ∧
    (lcbex_vopt_assign Vopt.empty (.str (strBytes "desc")) 4
        (.str (strBytes "true")) 4 0 none).1 = .success := by
  decide

/-- Claim C2 (amended): an option name whose bytes match no registry
entry under the length-bounded `strncmp` comparison (in particular, a
name that is neither a canonical name nor a prefix of one) is rejected
without the passthrough flag, with `LCB_EINVAL` and the error string
`Unrecognized option`; the same name with the passthrough flag succeeds
and the name is serialized verbatim (an owned copy of exactly the given
bytes). -/
theorem c2_unmatched_name_rejected_passthrough_verbatim
    (prior : Vopt) (name value : List Nat) (e : Option String)
    (hfind : find_view_param (.str name) name.length 0 = none)
    (hname : name ≠ []) (hvalue : value ≠ []) (hzero : (0 : Nat) ∉ name) :
    ((lcbex_vopt_assign prior (.str name) name.length (.str value)
        value.length 0 e).1 = .einval ∧
     (lcbex_vopt_assign prior (.str name) name.length (.str value)
        value.length 0 e).2.2 = some "Unrecognized option") ∧
    ((lcbex_vopt_assign prior (.str name) name.length (.str value)
        value.length LCBEX_VOPT_F_PASSTHROUGH e).1 = .success ∧
     (lcbex_vopt_assign prior (.str name) name.length (.str value)
        value.length LCBEX_VOPT_F_PASSTHROUGH e).2.1.optname = some name ∧
     (lcbex_vopt_assign prior (.str name) name.length (.str value)
        value.length LCBEX_VOPT_F_PASSTHROUGH e).2.1.noptname =
       name.length) := by
  have hnlen : name.length ≠ 0 := by simpa using hname
  have hvlen : value.length ≠ 0 := by simpa using hvalue
  have hdup : my_strndup name name.length = name := my_strndup_self name hzero
  constructor
  · constructor
    · simp [lcbex_vopt_assign, hfind, hvlen, hnlen, hasFlag,
        LCBEX_VOPT_F_OPTVAL_NUMERIC, LCBEX_VOPT_F_OPTNAME_NUMERIC,
        LCBEX_VOPT_F_PASSTHROUGH]
    · simp [lcbex_vopt_assign, hfind, hvlen, hnlen, hasFlag,
        LCBEX_VOPT_F_OPTVAL_NUMERIC, LCBEX_VOPT_F_OPTNAME_NUMERIC,
        LCBEX_VOPT_F_PASSTHROUGH]
  · have b1 : ((4 : Nat) &&& 32) = 0 := by decide
    have b2 : ((4 : Nat) &&& 2) = 0 := by decide
    have b3 : ((4 : Nat) &&& 8) = 0 := by decide
    have b4 : ((4 : Nat) &&& 1) = 0 := by decide
    refine ⟨?_, ?_, ?_⟩ <;>
      simp [lcbex_vopt_assign, string_param_handler, set_user_string, hvlen,
        hnlen, hdup, hasFlag, LCBEX_VOPT_F_OPTVAL_NUMERIC,
        LCBEX_VOPT_F_OPTNAME_NUMERIC, LCBEX_VOPT_F_PASSTHROUGH,
        LCBEX_VOPT_F_PCTENCODE, LCBEX_VOPT_F_OPTVAL_CONSTANT, b1, b2, b3, b4,
        CVal.asStr]

/-- Claim C2 (witness for the amended theorem, at the name `zzz`, which
matches no registry entry even as a prefix). -/
theorem c2_witness :
    (lcbex_vopt_assign Vopt.empty (.str (strBytes "zzz"))
        (strBytes "zzz").length (.str (strBytes "v"))
        (strBytes "v").length 0 none).1 = .einval ∧
    (lcbex_vopt_assign Vopt.empty (.str (strBytes "zzz"))
        (strBytes "zzz").length (.str (strBytes "v"))
        (strBytes "v").length LCBEX_VOPT_F_PASSTHROUGH none).2.1.optname =
      some (strBytes "zzz") :=
  ⟨(c2_unmatched_name_rejected_passthrough_verbatim Vopt.empty
      (strBytes "zzz") (strBytes "v") none (by decide) (by decide)
      (by decide) (by decide)).1.1,
   (c2_unmatched_name_rejected_passthrough_verbatim Vopt.empty
      (strBytes "zzz") (strBytes "v") none (by decide) (by decide)
      (by decide) (by decide)).2.2.1⟩

lemma find_view_param_two (o : CVal) (n : Nat) :
    find_view_param o n LCBEX_VOPT_F_OPTVAL_NUMERIC = find_view_param o n 0 := by
  have b1 : hasFlag LCBEX_VOPT_F_OPTVAL_NUMERIC LCBEX_VOPT_F_OPTNAME_NUMERIC = false := by decide
  have b2 : hasFlag 0 LCBEX_VOPT_F_OPTNAME_NUMERIC = false := by decide
  simp [find_view_param, b1, b2]

lemma assign_reduce_str (prior : Vopt) (nm : List Nat) (n : Nat)
    (s : List Nat) (nv : Nat) (e : Option String) (p : ViewParam)
    (hfind : find_view_param (.str nm) n 0 = some p) (hn : n ≠ 0)
    (hnv : nv ≠ 0) :
    lcbex_vopt_assign prior (.str nm) n (.str s) nv 0 e =
      runHandler p.ptype ⟨some (my_strndup nm n), none, n, 0, 0⟩
        (.str s) nv 0 e := by
  have c1 : hasFlag 0 LCBEX_VOPT_F_OPTVAL_NUMERIC = false := by decide
  have c2 : hasFlag 0 LCBEX_VOPT_F_OPTNAME_NUMERIC = false := by decide
  have c3 : hasFlag 0 LCBEX_VOPT_F_PASSTHROUGH = false := by decide
  have c4 : hasFlag 0 LCBEX_VOPT_F_OPTNAME_CONSTANT = false := by decide
  simp [lcbex_vopt_assign, hfind, hn, hnv, c1, c2, c3, c4, Vopt.empty,
    CVal.asStr]

lemma assign_reduce_num (prior : Vopt) (nm : List Nat) (n : Nat) (k : Int)
    (nv : Nat) (e : Option String) (p : ViewParam)
    (hfind : find_view_param (.str nm) n LCBEX_VOPT_F_OPTVAL_NUMERIC = some p)
    (hn : n ≠ 0) :
    lcbex_vopt_assign prior (.str nm) n (.num k) nv
        LCBEX_VOPT_F_OPTVAL_NUMERIC e =
      runHandler p.ptype
        ⟨some (my_strndup nm n), none, n, 0, LCBEX_VOPT_F_OPTVAL_NUMERIC⟩
        (.num k) nv LCBEX_VOPT_F_OPTVAL_NUMERIC e := by
  have c1 : hasFlag LCBEX_VOPT_F_OPTVAL_NUMERIC LCBEX_VOPT_F_OPTVAL_NUMERIC
      = true := by decide
  have c2 : hasFlag LCBEX_VOPT_F_OPTVAL_NUMERIC LCBEX_VOPT_F_OPTNAME_NUMERIC
      = false := by decide
  have c3 : hasFlag LCBEX_VOPT_F_OPTVAL_NUMERIC LCBEX_VOPT_F_PASSTHROUGH
      = false := by decide
  have c4 : hasFlag LCBEX_VOPT_F_OPTVAL_NUMERIC LCBEX_VOPT_F_OPTNAME_CONSTANT
      = false := by decide
  simp [lcbex_vopt_assign, hfind, hn, c1, c2, c3, c4, Vopt.empty, CVal.asStr]

lemma bool_handler_numeric_eq (o : Vopt) (k : Int) (nv f : Nat)
    (e : Option String) (hf : hasFlag f LCBEX_VOPT_F_OPTVAL_NUMERIC = true) :
    bool_param_handler o (.num k) nv f e =
      (.success,
        { o with
            optval := some (if k ≠ 0 then strBytes "true" else strBytes "false")
            noptval :=
              (if k ≠ 0 then strBytes "true" else strBytes "false").length
            flags := o.flags ||| LCBEX_VOPT_F_OPTVAL_CONSTANT },
        none) := by
  simp only [bool_param_handler, hf, if_true, CVal.asInt]

lemma bool_handler_str_true (o : Vopt) (s : List Nat) (nv f : Nat)
    (e : Option String) (hf : hasFlag f LCBEX_VOPT_F_OPTVAL_NUMERIC = false)
    (ht : strncaseEq (strBytes "true") s nv = true) :
    bool_param_handler o (.str s) nv f e =
      (.success,
        { o with
            optval := some (strBytes "true")
            noptval := (strBytes "true").length
            flags := o.flags ||| LCBEX_VOPT_F_OPTVAL_CONSTANT },
        none) := by
  simp [bool_param_handler, hf, CVal.asStr, ht]

lemma bool_handler_str_false (o : Vopt) (s : List Nat) (nv f : Nat)
    (e : Option String) (hf : hasFlag f LCBEX_VOPT_F_OPTVAL_NUMERIC = false)
    (ht : strncaseEq (strBytes "true") s nv = false)
    (hff : strncaseEq (strBytes "false") s nv = true) :
    bool_param_handler o (.str s) nv f e =
      (.success,
        { o with
            optval := some (strBytes "false")
            noptval := (strBytes "false").length
            flags := o.flags ||| LCBEX_VOPT_F_OPTVAL_CONSTANT },
        none) := by
  simp [bool_param_handler, hf, CVal.asStr, ht, hff]

lemma bool_handler_reject (o : Vopt) (s : List Nat) (nv f : Nat)
    (e : Option String) (hf : hasFlag f LCBEX_VOPT_F_OPTVAL_NUMERIC = false)
    (ht : strncaseEq (strBytes "true") s nv = false)
    (hff : strncaseEq (strBytes "false") s nv = false) :
    bool_param_handler o (.str s) nv f e =
      (.einval, o,
        some "String must be either \x27true\x27 or \x27false\x27") := by
  simp [bool_param_handler, hf, CVal.asStr, ht, hff]

lemma strncaseEq_len_zero (a s : List Nat) (h : s.length = 0) :
    strncaseEq a s s.length = true := by
  rw [h]; rfl

/-- Claim C3 (counterexample). The claim states that every string other
than case variants of `true` and `false` is rejected for a boolean
option; but the comparison is a length-bounded `strncasecmp`, so the
two-byte string `tr` — equal to neither word — is accepted for
`descending` and serialized as `true`. -/
theorem c3_bool_prefix_string_accepted :
    strBytes "tr" ≠ strBytes "true" ∧ strBytes "tr" ≠ strBytes "false" ∧
    (lcbex_vopt_assign Vopt.empty (.str (strBytes "descending")) 10
        (.str (strBytes "tr")) 2 0 none).1 = .success ∧
    (lcbex_vopt_assign Vopt.empty (.str (strBytes "descending")) 10
        (.str (strBytes "tr")) 2 0 none).2.1.optval =
      some (strBytes "true") := by
  decide

/-- Claim C3 (amended): for every recognized boolean option, numeric
value 1 and the string `true` produce the value string `true`, numeric 0
and the string `false` produce `false`; a string value is rejected with
invalid-argument exactly when it matches neither `"true"` nor `"false"`
under the length-bounded case-insensitive comparison the code uses (so
case-insensitive prefixes such as `tr` are also accepted, not only the
exact words). -/
theorem c3_bool_option_values :
    ∀ p ∈ recognized_view_params, p.ptype = PType.bool →
    ∀ (prior : Vopt) (s : List Nat) (e : Option String),
    ((lcbex_vopt_assign prior (.str p.param) p.param.length (.num 1) 0
        LCBEX_VOPT_F_OPTVAL_NUMERIC e).1 = .success ∧
     (lcbex_vopt_assign prior (.str p.param) p.param.length (.num 1) 0
        LCBEX_VOPT_F_OPTVAL_NUMERIC e).2.1.optval =
       some (strBytes "true")) ∧
    ((lcbex_vopt_assign prior (.str p.param) p.param.length (.num 0) 0
        LCBEX_VOPT_F_OPTVAL_NUMERIC e).1 = .success ∧
     (lcbex_vopt_assign prior (.str p.param) p.param.length (.num 0) 0
        LCBEX_VOPT_F_OPTVAL_NUMERIC e).2.1.optval =
       some (strBytes "false")) ∧
    ((lcbex_vopt_assign prior (.str p.param) p.param.length
        (.str (strBytes "true")) 4 0 e).1 = .success ∧
     (lcbex_vopt_assign prior (.str p.param) p.param.length
        (.str (strBytes "true")) 4 0 e).2.1.optval =
       some (strBytes "true")) ∧
    ((lcbex_vopt_assign prior (.str p.param) p.param.length
        (.str (strBytes "false")) 5 0 e).1 = .success ∧
     (lcbex_vopt_assign prior (.str p.param) p.param.length
        (.str (strBytes "false")) 5 0 e).2.1.optval =
       some (strBytes "false")) ∧
    (strncaseEq (strBytes "true") s s.length = false →
     strncaseEq (strBytes "false") s s.length = false →
     (lcbex_vopt_assign prior (.str p.param) p.param.length (.str s)
        s.length 0 e).1 = .einval) := by
  have hreg : ∀ p ∈ recognized_view_params, p.ptype = PType.bool →
      find_view_param (.str p.param) p.param.length 0 = some p ∧
        p.param.length ≠ 0 := by decide
  intro p hp hty prior s e
  obtain ⟨hfind, hn⟩ := hreg p hp hty
  have hfind2 : find_view_param (.str p.param) p.param.length
      LCBEX_VOPT_F_OPTVAL_NUMERIC = some p := by
    rw [find_view_param_two]; exact hfind
  have hnum : hasFlag LCBEX_VOPT_F_OPTVAL_NUMERIC LCBEX_VOPT_F_OPTVAL_NUMERIC
      = true := by decide
  have hstr : hasFlag 0 LCBEX_VOPT_F_OPTVAL_NUMERIC = false := by decide
  refine ⟨?_, ?_, ?_, ?_, ?_⟩
  · rw [assign_reduce_num prior _ _ 1 0 e p hfind2 hn, hty]
    rw [show runHandler PType.bool = bool_param_handler from rfl]
    rw [bool_handler_numeric_eq _ _ _ _ _ hnum]
    simp
  · rw [assign_reduce_num prior _ _ 0 0 e p hfind2 hn, hty]
    rw [show runHandler PType.bool = bool_param_handler from rfl]
    rw [bool_handler_numeric_eq _ _ _ _ _ hnum]
    simp
  · rw [assign_reduce_str prior _ _ _ 4 e p hfind hn (by decide), hty]
    rw [show runHandler PType.bool = bool_param_handler from rfl]
    rw [bool_handler_str_true _ _ _ _ _ hstr (by decide)]
    simp
  · rw [assign_reduce_str prior _ _ _ 5 e p hfind hn (by decide), hty]
    rw [show runHandler PType.bool = bool_param_handler from rfl]
    rw [bool_handler_str_false _ _ _ _ _ hstr (by decide) (by decide)]
    simp
  · intro ht hff
    have hnv : s.length ≠ 0 := by
      intro h0
      rw [h0] at ht
      simp [strncaseEq] at ht
    rw [assign_reduce_str prior _ _ _ _ e p hfind hn hnv, hty]
    rw [show runHandler PType.bool = bool_param_handler from rfl]
    rw [bool_handler_reject _ _ _ _ _ hstr ht hff]

/-- Claim C3 (witness for the amended theorem, at the option
`descending` with the rejected string `xyz`). -/
theorem c3_witness :
    (lcbex_vopt_assign Vopt.empty (.str (strBytes "descending")) 10
        (.str (strBytes "xyz")) (strBytes "xyz").length 0 none).1 =
      .einval := by
  have h := c3_bool_option_values ⟨1, strBytes "descending", PType.bool⟩
    (by decide) rfl Vopt.empty (strBytes "xyz") none
  exact h.2.2.2.2 (by decide) (by decide)

lemma range'_all_tail (c : Nat) (t : List Nat) :
    ((List.range' 1 t.length).all (fun ii => cisdigit ((c :: t).getD ii 0)))
      = true ↔ t.all cisdigit = true := by
  simp only [List.all_eq_true, List.mem_range']
  constructor
  · intro h x hx
    obtain ⟨i, hi, rfl⟩ := List.mem_iff_getElem.mp hx
    have hstep := h (i + 1) ⟨i, hi, by omega⟩
    rwa [List.getD_cons_succ, List.getD_eq_getElem?_getD,
      List.getElem?_eq_getElem hi, Option.getD_some] at hstep
  · intro h ii hii
    obtain ⟨i, hi, rfl⟩ := hii
    have hone : 1 + 1 * i = i + 1 := by omega
    rw [hone, List.getD_cons_succ, List.getD_eq_getElem?_getD,
      List.getElem?_eq_getElem hi, Option.getD_some]
    exact h _ (List.getElem_mem hi)

lemma num_handler_numeric_eq (o : Vopt) (k : Int) (nv f : Nat)
    (e : Option String) (hf : hasFlag f LCBEX_VOPT_F_OPTVAL_NUMERIC = true) :
    num_param_handler o (.num k) nv f e =
      (.success,
        { o with
            noptval := (intToDecBytes k).length
            optval := some (intToDecBytes k)
            flags := clearFlag o.flags LCBEX_VOPT_F_OPTVAL_CONSTANT },
        e) := by
  simp only [num_param_handler, hf, if_true, CVal.asInt]

lemma num_handler_str_iff (o : Vopt) (s : List Nat) (f : Nat)
    (e : Option String) (hf : hasFlag f LCBEX_VOPT_F_OPTVAL_NUMERIC = false) :
    ((num_param_handler o (.str s) s.length f e).1 = .success ↔
      specNumStringOk s = true) := by
  simp only [num_param_handler, hf, Bool.false_eq_true, if_false, CVal.asStr]
  rcases s with _ | ⟨c, t⟩
  · simp [specNumStringOk]
  · simp only [List.length_cons, Nat.add_sub_cancel, Nat.succ_ne_zero,
      if_false, List.headD_cons, specNumStringOk, List.isEmpty_cons,
      Bool.not_false, Bool.true_and]
    by_cases h45 : c = 45
    · subst h45
      have hc : cisdigit 45 = false := by decide
      simp only [hc, List.getD_cons_zero]
      simp only [show ¬((false = false) ∧ ¬(45 : Nat) = 45) from by simp,
        if_false, if_pos rfl, List.tail_cons]
      by_cases hall : ((List.range' 1 t.length).all
          (fun ii => cisdigit ((45 :: t).getD ii 0))) = true
      · rw [if_pos hall]
        simp [(range'_all_tail 45 t).mp hall]
      · rw [if_neg hall]
        have : ¬ t.all cisdigit = true := fun hh =>
          hall ((range'_all_tail 45 t).mpr hh)
        simp [this]
    · simp only [List.getD_cons_zero, List.headD_cons, if_neg h45]
      by_cases hc : cisdigit c = true
      · simp only [hc, show ¬((true = false) ∧ ¬c = 45) from by simp,
          if_false]
        by_cases hall : ((List.range' 1 t.length).all
            (fun ii => cisdigit ((c :: t).getD ii 0))) = true
        · rw [if_pos hall]
          simp [hc, (range'_all_tail c t).mp hall]
        · rw [if_neg hall]
          have : ¬ t.all cisdigit = true := fun hh =>
            hall ((range'_all_tail c t).mpr hh)
          simp [this, hc]
      · have hc' : cisdigit c = false := by
          cases hcc : cisdigit c
          · rfl
          · exact absurd hcc hc
        simp [hc', h45]

lemma specNumStringOk_no_zero (s : List Nat) (h : specNumStringOk s = true) :
    (0 : Nat) ∉ s := by
  intro h0
  rcases s with _ | ⟨c, t⟩
  · simp at h0
  · simp only [specNumStringOk, List.isEmpty_cons, Bool.not_false,
      Bool.true_and, List.headD_cons, List.tail_cons] at h
    rcases List.mem_cons.mp h0 with rfl | hmem
    · by_cases h45 : (0 : Nat) = 45
      · omega
      · rw [if_neg h45] at h
        have := (List.all_eq_true.mp h) 0 (List.mem_cons_self 0 t)
        simp [cisdigit] at this
    · by_cases h45 : c = 45
      · rw [if_pos h45] at h
        have := (List.all_eq_true.mp h) 0 hmem
        simp [cisdigit] at this
      · rw [if_neg h45] at h
        have := (List.all_eq_true.mp h) 0 (List.mem_cons_of_mem c hmem)
        simp [cisdigit] at this

lemma num_handler_str_accept (o : Vopt) (s : List Nat)
    (e : Option String) (hok : specNumStringOk s = true) :
    num_param_handler o (.str s) s.length 0 e =
      (.success,
        { o with
            noptval := s.length
            optval := some s
            flags := clearFlag o.flags LCBEX_VOPT_F_OPTVAL_CONSTANT },
        e) := by
  have hsucc := (num_handler_str_iff o s 0 e (by decide)).mpr hok
  have hdup : my_strndup s s.length = s :=
    my_strndup_self s (specNumStringOk_no_zero s hok)
  simp only [num_param_handler, CVal.asStr, show hasFlag 0
      LCBEX_VOPT_F_OPTVAL_NUMERIC = false from by decide,
    Bool.false_eq_true, if_false] at hsucc ⊢
  split_ifs at hsucc ⊢
  all_goals simp_all [set_user_string, hdup,
    show hasFlag 0 LCBEX_VOPT_F_OPTVAL_CONSTANT = false from by decide]

lemma natToDecDigits_digits (n : Nat) :
    ∀ c ∈ natToDecDigits n, 48 ≤ c ∧ c ≤ 57 := by
  induction n using Nat.strong_induction_on with
  | _ n ih =>
    rw [natToDecDigits]
    split_ifs with h
    · intro c hc
      simp only [List.mem_singleton] at hc
      omega
    · intro c hc
      rcases List.mem_append.mp hc with h1 | h2
      · exact ih (n / 10) (Nat.div_lt_self (by omega) (by omega)) c h1
      · simp only [List.mem_singleton] at h2
        have hm : n % 10 < 10 := Nat.mod_lt _ (by omega)
        omega

lemma natToDecDigits_ne_nil (n : Nat) : natToDecDigits n ≠ [] := by
  rw [natToDecDigits]
  split_ifs <;> simp

lemma intToDecBytes_ne_nil (k : Int) : intToDecBytes k ≠ [] := by
  unfold intToDecBytes
  split_ifs
  · simp
  · exact natToDecDigits_ne_nil _

lemma intToDecBytes_ok (k : Int) : specNumStringOk (intToDecBytes k) = true := by
  unfold intToDecBytes
  split_ifs with h
  · simp only [specNumStringOk, List.isEmpty_cons, Bool.not_false,
      Bool.true_and, List.headD_cons, List.tail_cons]
    rw [if_pos trivial, List.all_eq_true]
    intro x hx
    have hd := natToDecDigits_digits _ x hx
    simp only [cisdigit, Bool.and_eq_true, decide_eq_true_eq]
    omega
  · obtain ⟨c, t, hct⟩ :=
      List.exists_cons_of_ne_nil (natToDecDigits_ne_nil k.toNat)
    rw [hct]
    have hcd : 48 ≤ c ∧ c ≤ 57 :=
      natToDecDigits_digits k.toNat c (hct ▸ List.mem_cons_self c t)
    simp only [specNumStringOk, List.isEmpty_cons, Bool.not_false,
      Bool.true_and, List.headD_cons]
    rw [if_neg (by omega : ¬ c = 45), List.all_eq_true]
    intro x hx
    have hd := natToDecDigits_digits k.toNat x (hct ▸ hx)
    simp only [cisdigit, Bool.and_eq_true, decide_eq_true_eq]
    omega

/-- Claim C4. For every recognized numeric option: a numeric input is
formatted as a base-10 signed integer string; a string input is
accepted exactly when it is non-empty and consists of an optional
leading minus sign followed only by digits (`specNumStringOk`, worded
from the spec), in which case it is stored verbatim; and an integer and
its decimal-string form serialize to the same value bytes. -/
theorem c4_num_option_values :
    ∀ p ∈ recognized_view_params, p.ptype = PType.num →
    ∀ (prior : Vopt) (k : Int) (s : List Nat) (e : Option String),
    ((lcbex_vopt_assign prior (.str p.param) p.param.length (.num k) 0
        LCBEX_VOPT_F_OPTVAL_NUMERIC e).1 = .success ∧
     (lcbex_vopt_assign prior (.str p.param) p.param.length (.num k) 0
        LCBEX_VOPT_F_OPTVAL_NUMERIC e).2.1.optval =
       some (intToDecBytes k)) ∧
    ((lcbex_vopt_assign prior (.str p.param) p.param.length (.str s)
        s.length 0 e).1 = .success ↔ specNumStringOk s = true) ∧
    (specNumStringOk s = true →
     (lcbex_vopt_assign prior (.str p.param) p.param.length (.str s)
        s.length 0 e).2.1.optval = some s) ∧
    specNumStringOk (intToDecBytes k) = true ∧
    (lcbex_vopt_assign prior (.str p.param) p.param.length
        (.str (intToDecBytes k)) (intToDecBytes k).length 0 e).2.1.optval =
      (lcbex_vopt_assign prior (.str p.param) p.param.length (.num k) 0
        LCBEX_VOPT_F_OPTVAL_NUMERIC e).2.1.optval := by
  have hreg : ∀ p ∈ recognized_view_params, p.ptype = PType.num →
      find_view_param (.str p.param) p.param.length 0 = some p ∧
        p.param.length ≠ 0 := by decide
  intro p hp hty prior k s e
  obtain ⟨hfind, hn⟩ := hreg p hp hty
  have hfind2 : find_view_param (.str p.param) p.param.length
      LCBEX_VOPT_F_OPTVAL_NUMERIC = some p := by
    rw [find_view_param_two]; exact hfind
  have hnum : hasFlag LCBEX_VOPT_F_OPTVAL_NUMERIC LCBEX_VOPT_F_OPTVAL_NUMERIC
      = true := by decide
  have hrednum := assign_reduce_num prior p.param p.param.length k 0 e p
    hfind2 hn
  have hnumval : (lcbex_vopt_assign prior (.str p.param) p.param.length
      (.num k) 0 LCBEX_VOPT_F_OPTVAL_NUMERIC e).2.1.optval =
        some (intToDecBytes k) := by
    rw [hrednum, hty]
    rw [show runHandler PType.num = num_param_handler from rfl]
    rw [num_handler_numeric_eq _ _ _ _ _ hnum]
  refine ⟨⟨?_, hnumval⟩, ?_, ?_, intToDecBytes_ok k, ?_⟩
  · rw [hrednum, hty]
    rw [show runHandler PType.num = num_param_handler from rfl]
    rw [num_handler_numeric_eq _ _ _ _ _ hnum]
  · by_cases hsl : s.length = 0
    · have hs : s = [] := List.length_eq_zero.mp hsl
      subst hs
      have : (lcbex_vopt_assign prior (.str p.param) p.param.length
          (.str []) 0 0 e).1 = .einval := by
        simp [lcbex_vopt_assign, show hasFlag 0 LCBEX_VOPT_F_OPTVAL_NUMERIC
          = false from by decide]
      simp [this, specNumStringOk]
    · rw [assign_reduce_str prior _ _ _ _ e p hfind hn hsl, hty]
      rw [show runHandler PType.num = num_param_handler from rfl]
      exact num_handler_str_iff _ s 0 e (by decide)
  · intro hok
    have hsl : s.length ≠ 0 := by
      intro h0
      rw [List.length_eq_zero.mp h0] at hok
      simp [specNumStringOk] at hok
    rw [assign_reduce_str prior _ _ _ _ e p hfind hn hsl, hty]
    rw [show runHandler PType.num = num_param_handler from rfl]
    rw [num_handler_str_accept _ s e hok]
  · have hsl : (intToDecBytes k).length ≠ 0 := by
      simpa using intToDecBytes_ne_nil k
    rw [assign_reduce_str prior _ _ _ _ e p hfind hn hsl, hty, hnumval]
    rw [show runHandler PType.num = num_param_handler from rfl]
    rw [num_handler_str_accept _ _ e (intToDecBytes_ok k)]

/-- Claim C4 (witness, at the option `limit` with the value `-1` and
the rejected string `abc`). -/
theorem c4_witness :
    (lcbex_vopt_assign Vopt.empty (.str (strBytes "limit")) 5
        (.num (-1)) 0 LCBEX_VOPT_F_OPTVAL_NUMERIC none).2.1.optval =
      some (intToDecBytes (-1)) ∧
    ¬ (lcbex_vopt_assign Vopt.empty (.str (strBytes "limit")) 5
        (.str (strBytes "abc")) (strBytes "abc").length 0 none).1 =
      .success := by
  have h := c4_num_option_values ⟨14, strBytes "limit", PType.num⟩
    (by decide) rfl Vopt.empty (-1) (strBytes "abc") none
  refine ⟨h.1.2, fun hs => ?_⟩
  have := h.2.1.mp hs
  simp [specNumStringOk, cisdigit, strBytes] at this

lemma stale_handler_reject (o : Vopt) (s : List Nat) (nv f : Nat)
    (e : Option String)
    (hf : hasFlag f LCBEX_VOPT_F_OPTVAL_NUMERIC = false)
    (ht : strncaseEq (strBytes "true") s nv = false)
    (hff : strncaseEq (strBytes "false") s nv = false)
    (hu : strncaseEq (strBytes "update_after") s nv = false)
    (ho : strncaseEq (strBytes "ok") s nv = false) :
    stale_param_handler o (.str s) nv f e =
      (.einval, { o with flags := o.flags ||| LCBEX_VOPT_F_OPTVAL_CONSTANT },
        some "stale must be a boolean or the string \x27update_after\x27") := by
  have hb := bool_handler_reject
    { o with flags := o.flags ||| LCBEX_VOPT_F_OPTVAL_CONSTANT } s nv f e
    hf ht hff
  simp [stale_param_handler, hb, CVal.asStr, hu, ho]

/-- Claim C5 (counterexample). The claim states that any string other
than the listed stale values is rejected; but the comparison is a
length-bounded `strncasecmp`, so the string `update` — which is none of
`false`, `ok`, `update_after`, `true` — is accepted and serialized as
`update_after`. -/
theorem c5_stale_update_prefix_accepted :
    strBytes "update" ∉ [strBytes "false", strBytes "ok",
      strBytes "update_after", strBytes "true"] ∧
    (lcbex_vopt_assign Vopt.empty (.str (strBytes "stale")) 5
        (.str (strBytes "update")) 6 0 none).1 = .success ∧
    (lcbex_vopt_assign Vopt.empty (.str (strBytes "stale")) 5
        (.str (strBytes "update")) 6 0 none).2.1.optval =
      some (strBytes "update_after") := by
  decide

/-- Claim C5 (amended): the stale option maps string `false` to
`false`, `ok` to `ok`, `update_after` to `update_after`, numeric 1 to
`ok`, numeric 0 to `false`, string `true` to `ok`, and rejects
`invalid` with invalid-argument; in general a string value is rejected
exactly when it matches none of `true`, `false`, `update_after`, `ok`
under the length-bounded case-insensitive comparison the code uses (so
prefixes such as `update` are also accepted, not only the exact
words). -/
theorem c5_stale_option_values :
    ((lcbex_vopt_assign Vopt.empty (.str (strBytes "stale")) 5
        (.str (strBytes "false")) 5 0 none).1 = .success ∧
     (lcbex_vopt_assign Vopt.empty (.str (strBytes "stale")) 5
        (.str (strBytes "false")) 5 0 none).2.1.optval =
       some (strBytes "false")) ∧
    ((lcbex_vopt_assign Vopt.empty (.str (strBytes "stale")) 5
        (.str (strBytes "ok")) 2 0 none).1 = .success ∧
     (lcbex_vopt_assign Vopt.empty (.str (strBytes "stale")) 5
        (.str (strBytes "ok")) 2 0 none).2.1.optval =
       some (strBytes "ok")) ∧
    ((lcbex_vopt_assign Vopt.empty (.str (strBytes "stale")) 5
        (.str (strBytes "update_after")) 12 0 none).1 = .success ∧
     (lcbex_vopt_assign Vopt.empty (.str (strBytes "stale")) 5
        (.str (strBytes "update_after")) 12 0 none).2.1.optval =
       some (strBytes "update_after")) ∧
    ((lcbex_vopt_assign Vopt.empty (.str (strBytes "stale")) 5
        (.num 1) 0 LCBEX_VOPT_F_OPTVAL_NUMERIC none).1 = .success ∧
     (lcbex_vopt_assign Vopt.empty (.str (strBytes "stale")) 5
        (.num 1) 0 LCBEX_VOPT_F_OPTVAL_NUMERIC none).2.1.optval =
       some (strBytes "ok")) ∧
    ((lcbex_vopt_assign Vopt.empty (.str (strBytes "stale")) 5
        (.num 0) 0 LCBEX_VOPT_F_OPTVAL_NUMERIC none).1 = .success ∧
     (lcbex_vopt_assign Vopt.empty (.str (strBytes "stale")) 5
        (.num 0) 0 LCBEX_VOPT_F_OPTVAL_NUMERIC none).2.1.optval =
       some (strBytes "false")) ∧
    ((lcbex_vopt_assign Vopt.empty (.str (strBytes "stale")) 5
        (.str (strBytes "true")) 4 0 none).1 = .success ∧
     (lcbex_vopt_assign Vopt.empty (.str (strBytes "stale")) 5
        (.str (strBytes "true")) 4 0 none).2.1.optval =
       some (strBytes "ok")) ∧
    (lcbex_vopt_assign Vopt.empty (.str (strBytes "stale")) 5
        (.str (strBytes "invalid")) 7 0 none).1 = .einval ∧
    (∀ (prior : Vopt) (s : List Nat) (e : Option String),
     strncaseEq (strBytes "true") s s.length = false →
     strncaseEq (strBytes "false") s s.length = false →
     strncaseEq (strBytes "update_after") s s.length = false →
     strncaseEq (strBytes "ok") s s.length = false →
     (lcbex_vopt_assign prior (.str (strBytes "stale")) 5 (.str s)
        s.length 0 e).1 = .einval) := by
  refine ⟨by decide, by decide, by decide, by decide, by decide, by decide,
    by decide, ?_⟩
  intro prior s e ht hff hu ho
  have hnv : s.length ≠ 0 := by
    intro h0
    rw [h0] at ht
    simp [strncaseEq] at ht
  have hfind : find_view_param (.str (strBytes "stale")) 5 0 =
      some ⟨12, strBytes "stale", PType.stale⟩ := by decide
  have hred := assign_reduce_str prior (strBytes "stale") 5 s s.length e
    ⟨12, strBytes "stale", PType.stale⟩ hfind (by decide) hnv
  rw [hred]
  rw [show runHandler PType.stale = stale_param_handler from rfl]
  rw [stale_handler_reject _ _ _ _ _ (by decide) ht hff hu ho]

/-- Claim C5 (witness for the general rejection part of the amended
theorem, at the string `zzz`). -/
theorem c5_witness :
    (lcbex_vopt_assign Vopt.empty (.str (strBytes "stale")) 5
        (.str (strBytes "zzz")) (strBytes "zzz").length 0 none).1 =
      .einval :=
  c5_stale_option_values.2.2.2.2.2.2.2 Vopt.empty (strBytes "zzz") none
    (by decide) (by decide) (by decide) (by decide)

set_option maxRecDepth 8000

/-- Claim C6. Building the URI for design `ddoc`, view `vdoc` and the
option list `[stale=false, startkey_docid="a space" percent-encoded]`
(records produced by `lcbex_vopt_assign` exactly as the unit test does)
yields exactly `_design/ddoc/_view/vdoc?stale=false&startkey_docid=a%20space`;
and in general `lcbex_vqstr_make_uri` emits the
`_design/<design>/_view/<view>` path followed by the query string that
`lcbex_vqstr_write` produces. -/
theorem c6_make_uri :
    lcbex_vqstr_make_uri (strBytes "ddoc") (strBytes "vdoc")
      [(lcbex_vopt_assign Vopt.empty (.str (strBytes "stale")) 5
          (.str (strBytes "false")) 5 0 none).2.1,
       (lcbex_vopt_assign Vopt.empty (.str (strBytes "startkey_docid")) 14
          (.str (strBytes "a space")) 7 LCBEX_VOPT_F_PCTENCODE none).2.1] =
      strBytes
        "_design/ddoc/_view/vdoc?stale=false&startkey_docid=a%20space" ∧
    ∀ (design view : List Nat) (options : List Vopt),
      lcbex_vqstr_make_uri design view options =
        strBytes "_design/" ++ design ++ strBytes "/_view/" ++ view ++
          lcbex_vqstr_write_bytes options :=
  ⟨by decide, fun _ _ _ => rfl⟩

lemma pct_needed_size_all_unescaped (s : List Nat)
    (h : ∀ c ∈ s, needs_pct_encoding c = false) :
    ((s.map (fun c => if needs_pct_encoding c then 3 else 1)).sum : Nat)
      = s.length := by
  induction s with
  | nil => rfl
  | cons c t ih =>
    simp only [List.map_cons, List.sum_cons, List.length_cons,
      h c (List.mem_cons_self c t), Bool.false_eq_true, if_false]
    rw [ih (fun x hx => h x (List.mem_cons_of_mem c hx))]
    omega

lemma pct_needed_size_gt (s : List Nat)
    (hex : ∃ c ∈ s, needs_pct_encoding c = true) :
    s.length <
      ((s.map (fun c => if needs_pct_encoding c then 3 else 1)).sum : Nat) := by
  induction s with
  | nil => simp at hex
  | cons c t ih =>
    have hge : ∀ u : List Nat, u.length ≤
        ((u.map (fun c => if needs_pct_encoding c then 3 else 1)).sum : Nat) := by
      intro u
      induction u with
      | nil => simp
      | cons x y ihy =>
        simp only [List.map_cons, List.sum_cons, List.length_cons]
        split_ifs <;> omega
    simp only [List.map_cons, List.sum_cons, List.length_cons]
    rcases hex with ⟨d, hd, hneed⟩
    rcases List.mem_cons.mp hd with rfl | hmem
    · rw [hneed]
      have := hge t
      simp only [if_true]
      omega
    · have := ih ⟨d, hmem, hneed⟩
      split_ifs <;> omega

/-- Claim C7. A byte needs escaping exactly when it is not an ASCII
letter, digit, `-`, `_` or `.`; an escaped byte renders as a percent
byte plus exactly two uppercase hexadecimal digits; a value none of
whose bytes needs escaping passes through `do_pct_encode` unchanged,
and the string handler with percent-encoding requested stores such a
value verbatim, while a value with at least one byte to escape is
stored as its `do_pct_encode` image. -/
theorem c7_pct_encoding :
    (∀ c, c < 256 →
      (needs_pct_encoding c = false ↔
        ((65 ≤ c ∧ c ≤ 90) ∨ (97 ≤ c ∧ c ≤ 122) ∨ (48 ≤ c ∧ c ≤ 57) ∨
          c = 45 ∨ c = 95 ∨ c = 46))) ∧
    (∀ c, c < 256 → needs_pct_encoding c = true →
      (pctEscape c).length = 3 ∧ (pctEscape c).headD 0 = 37 ∧
        ∀ d ∈ (pctEscape c).tail,
          ((48 ≤ d ∧ d ≤ 57) ∨ (65 ≤ d ∧ d ≤ 70))) ∧
    (∀ s : List Nat, (∀ c ∈ s, needs_pct_encoding c = false) →
      do_pct_encode s = s) ∧
    (∀ (o : Vopt) (s : List Nat) (e : Option String),
      (∀ c ∈ s, needs_pct_encoding c = false) →
      (string_param_handler o (.str s) s.length LCBEX_VOPT_F_PCTENCODE
          e).1 = .success ∧
      (string_param_handler o (.str s) s.length LCBEX_VOPT_F_PCTENCODE
          e).2.1.optval = some s) ∧
    (∀ (o : Vopt) (s : List Nat) (e : Option String),
      (∃ c ∈ s, needs_pct_encoding c = true) →
      (string_param_handler o (.str s) s.length LCBEX_VOPT_F_PCTENCODE
          e).1 = .success ∧
      (string_param_handler o (.str s) s.length LCBEX_VOPT_F_PCTENCODE
          e).2.1.optval = some (do_pct_encode s)) := by
  refine ⟨by decide, by decide, ?_, ?_, ?_⟩
  · intro s h
    induction s with
    | nil => rfl
    | cons c t ih =>
      simp only [do_pct_encode, List.foldr_cons,
        h c (List.mem_cons_self c t), Bool.false_eq_true, if_false]
      have ht := ih (fun x hx => h x (List.mem_cons_of_mem c hx))
      simp only [do_pct_encode] at ht
      rw [ht]
      rfl
  · intro o s e h
    have hvn : hasFlag LCBEX_VOPT_F_PCTENCODE LCBEX_VOPT_F_OPTVAL_NUMERIC
        = false := by decide
    have hpe : hasFlag LCBEX_VOPT_F_PCTENCODE LCBEX_VOPT_F_PCTENCODE
        = true := by decide
    have hvc : hasFlag LCBEX_VOPT_F_PCTENCODE LCBEX_VOPT_F_OPTVAL_CONSTANT
        = false := by decide
    have hzero : (0 : Nat) ∉ s := by
      intro h0
      have := h 0 h0
      simp [needs_pct_encoding] at this
    have hneed := pct_needed_size_all_unescaped s h
    simp only [string_param_handler, hvn, hpe, hvc, Bool.false_eq_true,
      if_false, if_true, CVal.asStr, List.take_length, hneed, if_pos rfl,
      set_user_string, my_strndup_self s hzero]
    exact ⟨rfl, rfl⟩
  · intro o s e hex
    have hvn : hasFlag LCBEX_VOPT_F_PCTENCODE LCBEX_VOPT_F_OPTVAL_NUMERIC
        = false := by decide
    have hpe : hasFlag LCBEX_VOPT_F_PCTENCODE LCBEX_VOPT_F_PCTENCODE
        = true := by decide
    have hneed := pct_needed_size_gt s hex
    simp only [string_param_handler, hvn, hpe, Bool.false_eq_true,
      if_false, if_true, CVal.asStr, List.take_length]
    have hne : ¬ ((s.map
        (fun c => if needs_pct_encoding c then 3 else 1)).sum = s.length) := by
      omega
    rw [if_neg hne]
    exact ⟨rfl, rfl⟩

/-- Claim C7 (witness, at the unescaped value `abc` and the value
`a space` whose space byte needs escaping). -/
theorem c7_witness :
    ((string_param_handler Vopt.empty (.str (strBytes "abc"))
        (strBytes "abc").length LCBEX_VOPT_F_PCTENCODE none).2.1.optval =
      some (strBytes "abc")) ∧
    ((string_param_handler Vopt.empty (.str (strBytes "a space"))
        (strBytes "a space").length LCBEX_VOPT_F_PCTENCODE
        none).2.1.optval = some (do_pct_encode (strBytes "a space"))) :=
  ⟨(c7_pct_encoding.2.2.2.1 Vopt.empty (strBytes "abc") none
      (by decide)).2,
   (c7_pct_encoding.2.2.2.2 Vopt.empty (strBytes "a space") none
      ⟨32, by decide, by decide⟩).2⟩

lemma calc_foldl_shift (l : List Vopt) :
    ∀ m : Nat, l.foldl (fun ret o => ret + o.noptname + o.noptval + 2) m =
      m + l.foldl (fun ret o => ret + o.noptname + o.noptval + 2) 0 := by
  induction l with
  | nil => intro m; simp
  | cons o t ih =>
    intro m
    simp only [List.foldl_cons]
    rw [ih (m + o.noptname + o.noptval + 2), ih (0 + o.noptname + o.noptval + 2)]
    omega

lemma calc_foldl_mono (l : List Vopt) (m m' : Nat) (h : m ≤ m') :
    l.foldl (fun ret o => ret + o.noptname + o.noptval + 2) m ≤
      l.foldl (fun ret o => ret + o.noptname + o.noptval + 2) m' := by
  rw [calc_foldl_shift l m, calc_foldl_shift l m']
  omega

lemma write_fold_len_le (l : List Vopt) :
    ∀ acc : List Nat,
      (l.foldl
        (fun acc o =>
          acc ++ (o.optname.getD []).take o.noptname ++ [61]
              ++ (o.optval.getD []).take o.noptval ++ [38]) acc).length ≤
      l.foldl (fun ret o => ret + o.noptname + o.noptval + 2) acc.length := by
  induction l with
  | nil => intro acc; simp
  | cons o t ih =>
    intro acc
    simp only [List.foldl_cons]
    refine le_trans (ih _) ?_
    have h1 : (acc ++ (o.optname.getD []).take o.noptname ++ [61]
        ++ (o.optval.getD []).take o.noptval ++ [38]).length ≤
        acc.length + o.noptname + o.noptval + 2 := by
      simp only [List.length_append, List.length_take, List.length_cons,
        List.length_nil]
      have := Nat.min_le_left o.noptname (o.optname.getD []).length
      have := Nat.min_le_left o.noptval (o.optval.getD []).length
      omega
    exact calc_foldl_mono t _ _ h1

lemma write_fold_len_pos (l : List Vopt) :
    ∀ acc : List Nat,
      acc.length ≤
      (l.foldl
        (fun acc o =>
          acc ++ (o.optname.getD []).take o.noptname ++ [61]
              ++ (o.optval.getD []).take o.noptval ++ [38]) acc).length := by
  induction l with
  | nil => intro acc; simp
  | cons o t ih =>
    intro acc
    simp only [List.foldl_cons]
    refine le_trans ?_ (ih _)
    simp [List.length_append]

/-- Claim C8. For every option list the length `lcbex_vqstr_write`
returns is at most `lcbex_vqstr_calc_len` of the same list minus one,
and the bytes written plus the NUL terminator fit in a buffer of
`lcbex_vqstr_calc_len` bytes, so a buffer sized by `calc_len` is never
overflowed. -/
theorem c8_write_within_calc_len (options : List Vopt) :
    lcbex_vqstr_write_ret options ≤ lcbex_vqstr_calc_len options - 1 ∧
    (lcbex_vqstr_write_bytes options).length + 1 ≤
      lcbex_vqstr_calc_len options := by
  unfold lcbex_vqstr_write_ret lcbex_vqstr_calc_len lcbex_vqstr_write_bytes
  constructor
  · have h1 := calc_foldl_shift options 1
    omega
  · have hA := write_fold_len_le options [63]
    have hpos := write_fold_len_pos options [63]
    rw [List.length_dropLast]
    simp only [List.length_cons, List.length_nil, Nat.zero_add] at hA hpos
    omega

lemma bool_param_handler_code (o : Vopt) (v : CVal) (n f : Nat)
    (e : Option String) :
    (bool_param_handler o v n f e).1 = .success ∨
      (bool_param_handler o v n f e).1 = .einval := by
  simp only [bool_param_handler]
  split_ifs <;> simp

lemma num_param_handler_code (o : Vopt) (v : CVal) (n f : Nat)
    (e : Option String) :
    (num_param_handler o v n f e).1 = .success ∨
      (num_param_handler o v n f e).1 = .einval := by
  simp only [num_param_handler]
  split_ifs <;> simp

lemma string_param_handler_code (o : Vopt) (v : CVal) (n f : Nat)
    (e : Option String) :
    (string_param_handler o v n f e).1 = .success ∨
      (string_param_handler o v n f e).1 = .einval := by
  simp only [string_param_handler]
  split_ifs <;> simp

lemma stale_param_handler_code (o : Vopt) (v : CVal) (n f : Nat)
    (e : Option String) :
    (stale_param_handler o v n f e).1 = .success ∨
      (stale_param_handler o v n f e).1 = .einval := by
  simp only [stale_param_handler]
  split_ifs <;> simp

lemma onerror_param_handler_code (o : Vopt) (v : CVal) (n f : Nat)
    (e : Option String) :
    (onerror_param_handler o v n f e).1 = .success ∨
      (onerror_param_handler o v n f e).1 = .einval := by
  simp only [onerror_param_handler]
  split_ifs <;> simp

lemma runHandler_code (pt : PType) (o : Vopt) (v : CVal) (n f : Nat)
    (e : Option String) :
    (runHandler pt o v n f e).1 = .success ∨
      (runHandler pt o v n f e).1 = .einval := by
  cases pt <;> simp only [runHandler]
  · exact bool_param_handler_code o v n f e
  · exact num_param_handler_code o v n f e
  · exact string_param_handler_code o v n f e
  · exact string_param_handler_code o v n f e
  · exact string_param_handler_code o v n f e
  · exact onerror_param_handler_code o v n f e
  · exact stale_param_handler_code o v n f e

lemma assign_code (prior : Vopt) (option : CVal) (noption : Nat)
    (value : CVal) (nvalue : Nat) (flags : Nat) (e : Option String) :
    (lcbex_vopt_assign prior option noption value nvalue flags e).1 =
      .success ∨
    (lcbex_vopt_assign prior option noption value nvalue flags e).1 =
      .einval := by
  simp only [lcbex_vopt_assign]
  split_ifs
  · right; rfl
  · right; rfl
  · right; rfl
  · exact num_param_handler_code _ _ _ _ _
  · exact string_param_handler_code _ _ _ _ _
  all_goals {
    rcases hf : find_view_param option noption flags with _ | vparam
    · right; rfl
    · exact runHandler_code _ _ _ _ _ _ }

lemma createv_loop_odd : ∀ (N : Nat) (args : List (List Nat)),
    args.length ≤ N → args.length % 2 = 1 →
    ∀ (acc : List Vopt) (n : Nat) (e : Option String),
    (createv_loop args acc n e).1 = .einval := by
  intro N
  induction N with
  | zero =>
    intro args hlen hodd acc n e
    omega
  | succ N ih =>
    intro args hlen hodd acc n e
    match args with
    | [] => simp at hodd
    | [k] => rfl
    | k :: v :: rest =>
      simp only [List.length_cons] at hlen hodd
      simp only [createv_loop]
      by_cases hs : (lcbex_vopt_assign Vopt.empty (.str k) (cstrlen k)
          (.str v) (cstrlen v) 0 e).1 = .success
      · rw [if_pos hs]
        exact ih rest (by omega) (by omega) _ _ _
      · rw [if_neg hs]
        rcases assign_code Vopt.empty (.str k) (cstrlen k) (.str v)
          (cstrlen v) 0 e with h | h
        · exact absurd h hs
        · exact h

/-- Claim C9 (counterexample). The claim attaches the error string
`odd number of arguments` to every odd-length argument list; but for a
single-argument list the post-loop zero-count check overwrites the
message, so the call reports `Got no arguments` instead (the status is
still invalid-argument, and no output array is left). -/
theorem c9_single_argument_message :
    ([strBytes "stale"] : List (List Nat)).length % 2 = 1 ∧
    lcbex_vopt_createv [strBytes "stale"] =
      (.einval, none, 0, some "Got no arguments") ∧
    (lcbex_vopt_createv [strBytes "stale"]).2.2.2 ≠
      some "Got odd number of arguments" := by
  decide

/-- Claim C9 (amended): bulk creation fails with invalid-argument on an
empty list (error `Got no arguments`), on any odd-length list (with the
error `Got odd number of arguments` when at least one pair was consumed
first — a single-element list reports `Got no arguments`, as the
counterexample shows), and on the first pair whose assignment fails
(propagating that error and message); in every failure case the output
array is released and NULL, so no partial list is returned. -/
theorem c9_createv_failure_semantics :
    lcbex_vopt_createv [] = (.einval, none, 0, some "Got no arguments") ∧
    (∀ k : List Nat, lcbex_vopt_createv [k] =
        (.einval, none, 0, some "Got no arguments")) ∧
    (∀ args : List (List Nat), args.length % 2 = 1 →
      (lcbex_vopt_createv args).1 = .einval ∧
        (lcbex_vopt_createv args).2.1 = none) ∧
    (∀ args : List (List Nat), (lcbex_vopt_createv args).1 ≠ .success →
      (lcbex_vopt_createv args).2.1 = none) ∧
    (∀ (k v : List Nat) (rest : List (List Nat)),
      (lcbex_vopt_assign Vopt.empty (.str k) (cstrlen k) (.str v)
          (cstrlen v) 0 (some "")).1 ≠ .success →
      lcbex_vopt_createv (k :: v :: rest) =
        ((lcbex_vopt_assign Vopt.empty (.str k) (cstrlen k) (.str v)
            (cstrlen v) 0 (some "")).1, none, 1,
         (lcbex_vopt_assign Vopt.empty (.str k) (cstrlen k) (.str v)
            (cstrlen v) 0 (some "")).2.2)) ∧
    lcbex_vopt_createv [strBytes "stale", strBytes "ok", strBytes "limit"] =
      (.einval, none, 1, some "Got odd number of arguments") := by
  refine ⟨by decide, ?_, ?_, ?_, ?_, by decide⟩
  · intro k
    rfl
  · intro args hodd
    have hloop := createv_loop_odd args.length args le_rfl hodd [] 0 (some "")
    simp only [lcbex_vopt_createv]
    by_cases hz : (createv_loop args [] 0 (some "")).2.2.1 = 0
    · simp [hz]
    · simp [hz, hloop]
  · intro args h
    simp only [lcbex_vopt_createv] at h ⊢
    split_ifs at h ⊢ <;> simp_all
  · intro k v rest hfail
    simp only [lcbex_vopt_createv, createv_loop]
    rw [if_neg hfail]
    have hz : (0 : Nat) + 1 ≠ 0 := by omega
    simp only [hz, Nat.zero_add, if_false]
    split_ifs with hs
    · exact absurd hs hfail
    · rfl

/-- Claim C9 (witness for the first-failing-pair part of the amended
theorem, at the unrecognized key `bob`). -/
theorem c9_witness :
    lcbex_vopt_createv [strBytes "bob", strBytes "loblaw"] =
      (.einval, none, 1, some "Unrecognized option") := by
  have h := c9_createv_failure_semantics.2.2.2.2.1 (strBytes "bob")
    (strBytes "loblaw") [] (by decide)
  exact h.trans (by decide)

end Lcbex
